import Mathlib

/-!
# Verification of ratatui-py against its specification

Shallow embedding of the pure parts of the `ratatui_py` package
(layout splitting, color encoding fallbacks, wrapper lifecycle,
headless-render control flow, the App event loop, the cast-file
converter, FrameBudget and BackgroundTask) together with proofs of
the specification claims about them.

Python integers are modelled as `Int`, Python floats appearing in the
layout code as `Rat` (all concrete inputs exercised below are dyadic,
where binary floating point is exact), and Python's `round` (banker's
rounding, half to even) as `pyRound`.
-/

set_option autoImplicit false

namespace RatatuiPy

/-! ## Layout helper (`ratatui_py/layout.py`)

A rect is the 4-tuple `(x, y, w, h)` of Python ints. -/

structure Rect where
  x : Int
  y : Int
  w : Int
  h : Int
deriving Repr, DecidableEq

/-- Python 3 `round` on an exact (dyadic) value: round half to even,
as used by `int(round(...))` in `layout.py`. -/
def pyRound (q : ℚ) : Int :=
  if q - ⌊q⌋ < 1/2 then ⌊q⌋
  else if (1:ℚ)/2 < q - ⌊q⌋ then ⌊q⌋ + 1
  else if ⌊q⌋ % 2 = 0 then ⌊q⌋ else ⌊q⌋ + 1

/-- The divisor `fr_sum = sum(fractions) or 1.0` from `split_h`/`split_v`:
a sum of `0.0` is falsy in Python, so it is replaced by `1.0`. -/
def frSumOf (fractions : List ℚ) : ℚ :=
  if fractions.sum = 0 then 1 else fractions.sum

/-- Size of a non-final segment: `int(round(avail * (f / fr_sum)))`. -/
def segSize (avail : Int) (frSum : ℚ) (f : ℚ) : Int :=
  pyRound ((avail : ℚ) * (f / frSum))

/-- The shared loop body of `split_h` and `split_v`: walking the fraction
list with the running offset (`yy` resp. `xx`), it emits for each fraction
the pair (offset, clamped size).  A non-final segment has size
`int(round(avail * (f / fr_sum)))`, the final one `endPos - pos`
(`y + h - yy` resp. `x + w - xx`); the stored size is `max 0` of that,
while the offset advances by the unclamped size plus one gap. -/
def segs (endPos avail : Int) (frSum : ℚ) (gap : Int) :
    Int → List ℚ → List (Int × Int)
  | _, [] => []
  | pos, [_] => [(pos, max 0 (endPos - pos))]
  | pos, f :: g :: rest =>
    let s := segSize avail frSum f
    (pos, max 0 s) :: segs endPos avail frSum gap (pos + s + gap) (g :: rest)

/-- The offset (`yy` resp. `xx`) at which the final loop iteration starts. -/
def segsLastPos (avail : Int) (frSum : ℚ) (gap : Int) :
    Int → List ℚ → Int
  | pos, [] => pos
  | pos, [_] => pos
  | pos, f :: g :: rest =>
    segsLastPos avail frSum gap (pos + segSize avail frSum f + gap) (g :: rest)

/-- `split_h(rect, *fractions, gap)` from `layout.py`: stacked rows
subdividing the height. -/
def split_h (rect : Rect) (fractions : List ℚ) (gap : Int) : List Rect :=
  let total_gap : Int := max 0 (((fractions.length : Int) - 1) * gap)
  let avail : Int := max 0 (rect.h - total_gap)
  (segs (rect.y + rect.h) avail (frSumOf fractions) gap rect.y fractions).map
    (fun p => ⟨rect.x, p.1, rect.w, p.2⟩)

/-- `split_v(rect, *fractions, gap)` from `layout.py`: side-by-side columns
subdividing the width. -/
def split_v (rect : Rect) (fractions : List ℚ) (gap : Int) : List Rect :=
  let total_gap : Int := max 0 (((fractions.length : Int) - 1) * gap)
  let avail : Int := max 0 (rect.w - total_gap)
  (segs (rect.x + rect.w) avail (frSumOf fractions) gap rect.x fractions).map
    (fun p => ⟨p.1, rect.y, p.2, rect.h⟩)

/-- The value of the running offset `xx` when `split_v`'s loop reaches its
final fraction: `rect.x` advanced past every non-final column's width plus
one gap each. -/
def splitVLastPos (rect : Rect) (fractions : List ℚ) (gap : Int) : Int :=
  segsLastPos (max 0 (rect.w - max 0 (((fractions.length : Int) - 1) * gap)))
    (frSumOf fractions) gap rect.x fractions

/-- The value of the running offset `yy` when `split_h`'s loop reaches its
final fraction. -/
def splitHLastPos (rect : Rect) (fractions : List ℚ) (gap : Int) : Int :=
  segsLastPos (max 0 (rect.h - max 0 (((fractions.length : Int) - 1) * gap)))
    (frSumOf fractions) gap rect.y fractions

/-! ## Wrapper lifecycle (`ratatui_py/wrappers.py`)

Every wrapper class (Paragraph, List, Table, Gauge, Tabs, BarChart,
Sparkline, Chart, Scrollbar, ListState, TableState) and Terminal has the
same textually identical `close` method:

    def close(self) -> None:
        if getattr(self, "_handle", None):
            self._lib.ratatui_<kind>_free(self._handle)
            self._handle = None

We model the observable state of one wrapper: the stored handle (a
`c_void_p`, `none` once cleared; `some 0` would be falsy in Python just
like `None`) and how many times the matching native free function has
been invoked. -/

structure WrapperState where
  handle : Option Int
  freeCalls : Nat
deriving Repr, DecidableEq

/-- Python truthiness of the `getattr(self, "_handle", None)` guard:
`None` and a NULL `c_void_p` are falsy, any nonzero pointer is truthy. -/
def handleTruthy : Option Int → Bool
  | none => false
  | some p => p != 0

/-- One `close()` call: if the stored handle is truthy, invoke the native
free function once and set the handle to `None`; otherwise do nothing. -/
def close (s : WrapperState) : WrapperState :=
  if handleTruthy s.handle then ⟨none, s.freeCalls + 1⟩ else s

/-- A freshly constructed wrapper: the constructor raises unless the
native `new` call returned a non-null pointer, so a live wrapper always
starts with a nonzero handle and zero free calls. -/
def freshWrapper (ptr : Int) : WrapperState := ⟨some ptr, 0⟩

/-! ## Color helpers (`ratatui_py/wrappers.py`, fallback path)

When the loaded library lacks `ratatui_color_rgb` / `ratatui_color_indexed`
the wrappers compute the encoding in Python.  Python's `r & 0xFF` on an
arbitrary int is arithmetic mod 256 (nonnegative), modelled as
`(r % 256).toNat`. -/

/-- Python `int(r) & 0xFF` for an arbitrary Python int `r`. -/
def mask8 (r : Int) : Nat := (r % 256).toNat

/-- `rgb(r, g, b)` fallback:
`0x80000000 | ((r & 0xFF) << 16) | ((g & 0xFF) << 8) | (b & 0xFF)`. -/
def rgb (r g b : Int) : Nat :=
  0x80000000 ||| (mask8 r <<< 16) ||| (mask8 g <<< 8) ||| mask8 b

/-- `color_indexed(i)` fallback: `0x40000000 | (i & 0xFF)`. -/
def color_indexed (i : Int) : Nat :=
  0x40000000 ||| mask8 i

/-! ## Headless render helpers (`ratatui_py/wrappers.py`)

All eight `headless_render_<kind>` functions (paragraph, list, table,
gauge, tabs, barchart, sparkline, chart) share the same body:

    out = C.c_char_p()
    ok = lib.ratatui_headless_render_<kind>(..., C.byref(out))
    if not ok or not out:
        return ""
    try:
        s = C.cast(out, C.c_char_p).value.decode("utf-8", errors="replace")
    finally:
        lib.ratatui_string_free(out)
    return s

The native call's observable output is a success flag and an optional
string buffer (already decoded here; `errors="replace"` never raises).
The model returns the Python-level return value together with whether
`ratatui_string_free` was invoked. -/

def headlessRender (ok : Bool) (buf : Option String) : String × Bool :=
  match ok, buf with
  | false, _ => ("", false)
  | true, none => ("", false)
  | true, some s => (s, true)

/-! ## Cast downgrade converter (`scripts/convert_cast_v3_to_v2.py`)

The script reads a JSON-lines "cast" file: the first line is a JSON
header object, the remaining lines are event records.  `json.loads` of
the header is abstracted into a `CastHeader` value carried alongside the
raw first line; `timestamp`/`env` values are carried as their JSON
serializations, since the script passes them through to `json.dumps`
unchanged.  A file is a list of lines. -/

structure TermInfo where
  cols : Option Int
  rows : Option Int
deriving Repr, DecidableEq

structure CastHeader where
  version : Int
  term : Option TermInfo
  timestamp : Option String
  env : Option String
deriving Repr, DecidableEq

/-- Python `int(term.get('cols') or 80)`: an absent, null or zero value
is falsy and yields the default. -/
def colsOrDefault (c : Option Int) (dflt : Int) : Int :=
  match c with
  | none => dflt
  | some v => if v = 0 then dflt else v

/-- The compact v2 header emitted by `json.dumps(out_hdr, separators=(',', ':'))`:
insertion order is version, width, height, then timestamp and env when
present in the input header. -/
def v2HeaderLine (hdr : CastHeader) : String :=
  let t := match hdr.term with
    | none => TermInfo.mk none none
    | some t => t
  let cols := colsOrDefault t.cols 80
  let rows := colsOrDefault t.rows 24
  let base := "\x7b\"version\":2,\"width\":" ++ toString cols ++
    ",\"height\":" ++ toString rows
  let withTs := match hdr.timestamp with
    | none => base
    | some ts => base ++ ",\"timestamp\":" ++ ts
  let withEnv := match hdr.env with
    | none => withTs
    | some e => withTs ++ ",\"env\":" ++ e
  withEnv ++ "\x7d"

/-- `convert(in_path, out_path)`: `input` is the list of input lines
(first line the raw header text, parsed as `hdr`); the result is the
list of output lines, or the `SystemExit` message on a fatal exit. -/
def convert (input : List String) (hdr : CastHeader) :
    Except String (List String) :=
  match input with
  | [] => .error "empty cast file"
  | first :: rest =>
    if hdr.version = 2 then .ok (first :: rest)
    else if hdr.version ≠ 3 then
      .error ("unsupported cast version: " ++ toString hdr.version)
    else .ok (v2HeaderLine hdr :: rest)

/-- Exit status of the script when `convert` runs to this outcome: a
`SystemExit` raised with a string message terminates the process with
status 1; normal completion of `main` returns 0. -/
def convertExitCode (r : Except String (List String)) : Int :=
  match r with
  | .ok _ => 0
  | .error _ => 1

/-! ## List.append_items_spans fallback (`ratatui_py/wrappers.py` 490-497)

When the native library lacks `ratatui_list_append_items_spans` the
method runs

    for spans in items:
        for text, style in spans:
            self.append_item(text, style)

so each span of each item is appended as its own list item.  The model
records the sequence of `append_item(text, style)` calls; the Style
argument is opaque and carried as a type parameter. -/

def appendItemsSpansFallback {σ : Type} :
    List (List (String × σ)) → List (String × σ)
  | [] => []
  | spans :: items => go spans ++ appendItemsSpansFallback items
where
  go : List (String × σ) → List (String × σ)
    | [] => []
    | p :: rest => p :: go rest

/-! ## App.run event dispatch (`ratatui_py/wrappers.py` 407-431)

Inside the loop:

    evt = term.next_event(wait_ms)
    if evt is not None and self.on_event is not None:
        keep_going = self.on_event(term, evt, state)
        if keep_going is False:
            break

`keep_going is False` is an identity test against the singleton `False`
object: only the boolean `False` itself stops the loop.  Python values a
callback may return are modelled by `PyVal`; `pyTruthy` is Python's
truthiness. -/

inductive PyVal where
  | none : PyVal
  | bool : Bool → PyVal
  | int : Int → PyVal
  | str : String → PyVal
deriving Repr, DecidableEq

/-- Python truthiness (`bool(v)`). -/
def pyTruthy : PyVal → Bool
  | .none => false
  | .bool b => b
  | .int n => n != 0
  | .str s => s != ""

/-- The `keep_going is False` test from `App.run`. -/
def isStopSignal (v : PyVal) : Bool :=
  v == .bool false

/-- The event-dispatch skeleton of `App.run`, driven by the trace of
values `term.next_event` yields each iteration (`none` when the poll
timed out).  Returns how many loop iterations execute before the loop
breaks (or the trace is exhausted).  `onEvent` is absent when no
`on_event` callback was configured. -/
def appRunSteps {Ev : Type} (onEvent : Option (Ev → PyVal)) :
    List (Option Ev) → Nat
  | [] => 0
  | polled :: rest =>
    match polled, onEvent with
    | some ev, some f =>
      if isStopSignal (f ev) then 1 else 1 + appRunSteps onEvent rest
    | _, _ => 1 + appRunSteps onEvent rest

/-! ## FrameBudget (`ratatui_py/util.py` 8-17) -/

/-- The budget stored by `FrameBudget.__init__`: `max(1, int(budget_ms))`. -/
def frameBudgetStored (budget_ms : Int) : Int := max 1 budget_ms

/-- `elapsed_ms()`: `int((monotonic() - self.start) * 1000)`; the elapsed
seconds are nonnegative, so `int` truncation is the floor. -/
def elapsedMs (elapsedSec : ℚ) : Int := ⌊elapsedSec * 1000⌋

/-- `should_yield()`: `self.elapsed_ms() >= self.budget`. -/
def shouldYield (budget elapsed_ms : Int) : Bool := elapsed_ms ≥ budget

/-! ## BackgroundTask (`ratatui_py/util.py` 33-82)

The loop-mode worker body:

    while not self._stop.is_set():
        res = self._fn(self)
        with self._lock:
            self._result = res
    ...
    except BaseException as e:
        self._error = e

With `stop()` never called, each iteration runs the unit of work and
stores its result; the first raised exception leaves the `while` loop
through the `except` clause, which records it.  The worker is driven by
the list of outcomes successive calls of `self._fn` would produce; the
returned `Nat` counts how many of them actually ran. -/

structure TaskState (E V : Type) where
  result : Option V
  error : Option E
deriving Repr, DecidableEq

/-- `peek()`: returns the latest stored result. -/
def peek {E V : Type} (s : TaskState E V) : Option V := s.result

/-- `error()`: returns the captured exception, if any. -/
def taskError {E V : Type} (s : TaskState E V) : Option E := s.error

/-- The loop-mode worker with the stop flag never set, consuming
successive outcomes of the unit of work. -/
def runLoop {E V : Type} : List (Except E V) → TaskState E V →
    TaskState E V × Nat
  | [], s => (s, 0)
  | .ok v :: rest, s =>
    let r := runLoop rest ⟨some v, s.error⟩
    (r.1, r.2 + 1)
  | .error e :: _, s => (⟨s.result, some e⟩, 1)

/-! ## Helper lemmas -/

example : pyRound (49/2) = 24 := by norm_num [pyRound]
example : pyRound (3/2) = 2 := by norm_num [pyRound]
example : pyRound (-1/2) = 0 := by norm_num [pyRound]
example : pyRound (-3/2) = -2 := by norm_num [pyRound]

example :
    split_v ⟨0, 0, 100, 24⟩ [1/4, 1/2, 1/4] 1 =
      [⟨0, 0, 24, 24⟩, ⟨25, 0, 49, 24⟩, ⟨75, 0, 25, 24⟩] := by
  norm_num [split_v, segs, segSize, frSumOf, pyRound]

example :
    split_v ⟨0, 0, 3, 24⟩ [1, 1, 0] 0 =
      [⟨0, 0, 2, 24⟩, ⟨2, 0, 2, 24⟩, ⟨4, 0, 0, 24⟩] := by
  norm_num [split_v, segs, segSize, frSumOf, pyRound]

lemma close_none (n : Nat) : close ⟨none, n⟩ = ⟨none, n⟩ := rfl

lemma close_iterate_none (n k : Nat) : close^[k] ⟨none, n⟩ = ⟨none, n⟩ := by
  induction k with
  | zero => rfl
  | succ k ih => rw [Function.iterate_succ_apply, close_none, ih]

lemma mask8_add_256 (r : Int) : mask8 (r + 256) = mask8 r := by
  unfold mask8
  congr 1
  omega

lemma mask8_sub_256 (r : Int) : mask8 (r - 256) = mask8 r := by
  unfold mask8
  congr 1
  omega

/-! ## Claim theorems -/

/-- Claim C2: for every widget wrapper (Paragraph, List, Table, Gauge,
Tabs, BarChart, Sparkline, Chart, Scrollbar, ListState, TableState) and
for Terminal, a second or later `close()` is a no-op that does not
raise, the matching native free function is invoked exactly once over
the object's lifetime, and after `close()` the stored handle is `None`,
so no further native call receives the freed handle.  For a wrapper
whose construction succeeded (nonzero native pointer), any positive
number of `close()` calls leaves the handle absent with exactly one
native free call, and `close` is idempotent on every state. -/
theorem close_free_exactly_once (ptr : Int) (hp : ptr ≠ 0) :
    (∀ n : Nat, close^[n + 1] (freshWrapper ptr) = ⟨none, 1⟩) ∧
    (∀ s : WrapperState, close (close s) = close s) ∧
    (close (freshWrapper ptr)).handle = none := by
  have hfresh : close (freshWrapper ptr) = ⟨none, 1⟩ := by
    simp [close, freshWrapper, handleTruthy, hp]
  refine ⟨fun n => ?_, fun s => ?_, by rw [hfresh]⟩
  · rw [Function.iterate_succ_apply, hfresh, close_iterate_none]
  · unfold close handleTruthy
    rcases s with ⟨h, n⟩
    rcases h with _ | p <;> simp
    by_cases hz : p = 0 <;> simp [hz]

/-- Witness for C2 at a concrete pointer: two successive closes of a
fresh wrapper free exactly once and clear the handle. -/
theorem close_free_exactly_once_witness :
    close^[2] (freshWrapper 1) = ⟨none, 1⟩ :=
  (close_free_exactly_once 1 (by decide)).1 1

/-- Claim C3: with the native color helpers absent, `rgb` and
`color_indexed` use the tag-bit fallback encoding
`0x80000000 | ((r & 0xFF) << 16) | ((g & 0xFF) << 8) | (b & 0xFF)` and
`0x40000000 | (i & 0xFF)`; concretely `rgb 255 128 0 = 0x80FF8000` and
`color_indexed 200 = 0x400000C8`, and out-of-range inputs are masked to
8 bits (periodic with period 256, negative values wrapped) rather than
rejected. -/
theorem rgb_color_indexed_fallback :
    (∀ r g b : Int,
      rgb r g b =
        0x80000000 ||| (((r % 256).toNat) <<< 16) |||
          (((g % 256).toNat) <<< 8) ||| (b % 256).toNat) ∧
    (∀ i : Int, color_indexed i = 0x40000000 ||| (i % 256).toNat) ∧
    rgb 255 128 0 = 0x80FF8000 ∧
    color_indexed 200 = 0x400000C8 ∧
    (∀ r g b : Int, rgb (r + 256) (g - 256) b = rgb r g b) ∧
    (∀ i : Int, color_indexed (i + 256) = color_indexed i) ∧
    rgb 256 (-1) 512 = rgb 0 255 0 := by
  refine ⟨fun r g b => rfl, fun i => rfl, by decide, by decide,
    fun r g b => ?_, fun i => ?_, ?_⟩
  · unfold rgb
    rw [mask8_add_256, mask8_sub_256]
  · unfold color_indexed
    rw [mask8_add_256]
  · decide

/-- Claim C4: every `headless_render_<kind>` helper (paragraph, list,
table, gauge, tabs, barchart, sparkline, chart) returns the empty
string when the native call reports failure or yields a null buffer,
otherwise returns the decoded buffer, and invokes
`ratatui_string_free` exactly when a buffer was copied into the return
value. -/
theorem headless_render_contract :
    (∀ buf : Option String, headlessRender false buf = ("", false)) ∧
    headlessRender true none = ("", false) ∧
    (∀ s : String, headlessRender true (some s) = (s, true)) ∧
    (∀ (ok : Bool) (buf : Option String),
      (headlessRender ok buf).2 = (ok && buf.isSome)) := by
  refine ⟨fun buf => ?_, rfl, fun s => rfl, fun ok buf => ?_⟩
  · cases buf <;> rfl
  · cases ok <;> cases buf <;> rfl

/-- Claim C10: if a BackgroundTask's unit of work raises during loop
mode (stop never requested), the worker leaves the loop for good — the
iterations after the failure never run — the exception is what
`error()` returns, and `peek()` still returns the last result stored
before the failure. -/
theorem background_task_loop_error {E V : Type} (pre : List V) (e : E)
    (post : List (Except E V)) :
    taskError (runLoop (pre.map Except.ok ++ Except.error e :: post)
      ⟨none, none⟩).1 = some e ∧
    peek (runLoop (pre.map Except.ok ++ Except.error e :: post)
      ⟨none, none⟩).1 = pre.getLast? ∧
    (runLoop (pre.map Except.ok ++ Except.error e :: post)
      ⟨none, none⟩).2 = pre.length + 1 := by
  have key : ∀ (pre : List V) (s : TaskState E V),
      runLoop (pre.map Except.ok ++ Except.error e :: post) s =
        (⟨pre.getLast?.or s.result, some e⟩, pre.length + 1) := by
    intro pre
    induction pre with
    | nil => intro s; simp [runLoop]
    | cons v pre ih =>
      intro s
      simp only [List.map_cons, List.cons_append, runLoop, List.append_eq]
      rw [ih ⟨some v, s.error⟩]
      cases pre <;> simp [List.getLast?]
  rw [key pre ⟨none, none⟩]
  simp [peek, taskError]

/-- Claim C9: a FrameBudget's stored budget is always at least 1 ms —
for every `budget_ms ≤ 1` (including 0 and negatives) the stored budget
is exactly 1 — and `should_yield()` stays false until at least 1 ms has
elapsed since construction. -/
theorem frame_budget_at_least_one_ms :
    (∀ b : Int, b ≤ 1 → frameBudgetStored b = 1) ∧
    (∀ b : Int, 1 ≤ frameBudgetStored b) ∧
    (∀ (b : Int) (t : ℚ), 0 ≤ t → t < 1/1000 →
      shouldYield (frameBudgetStored b) (elapsedMs t) = false) := by
  refine ⟨fun b hb => ?_, fun b => ?_, fun b t ht0 ht1 => ?_⟩
  · unfold frameBudgetStored
    omega
  · unfold frameBudgetStored
    omega
  · have hz : elapsedMs t = 0 := by
      unfold elapsedMs
      rw [Int.floor_eq_zero_iff]
      constructor
      · positivity
      · calc t * 1000 < (1/1000) * 1000 := by
              exact mul_lt_mul_of_pos_right ht1 (by norm_num)
          _ = 1 := by norm_num
    have hbud : 1 ≤ frameBudgetStored b := by unfold frameBudgetStored; omega
    rw [hz]
    unfold shouldYield
    simp only [ge_iff_le, decide_eq_false_iff_not, not_le]
    omega

lemma half_ms_nonneg : (0:ℚ) ≤ 1/2000 := by norm_num

lemma half_ms_lt_one_ms : (1:ℚ)/2000 < 1/1000 := by norm_num

/-- Witness for C9: budget_ms = 0 stores budget 1, and half a
millisecond after construction should_yield is still false. -/
theorem frame_budget_at_least_one_ms_witness :
    frameBudgetStored 0 = 1 ∧
    shouldYield (frameBudgetStored 0) (elapsedMs (1/2000)) = false :=
  ⟨frame_budget_at_least_one_ms.1 0 (by decide),
   frame_budget_at_least_one_ms.2.2 0 (1/2000) half_ms_nonneg half_ms_lt_one_ms⟩

/-- Claim C5: the cast downgrade converter passes a version-2 file
through unchanged; downgrades a version-3 header with cols=100/rows=40
to exactly the compact line `{"version":2,"width":100,"height":40}`
(defaulting to 80×24 when the term sizes are absent and passing
timestamp/env through verbatim when present) while copying all
remaining lines unchanged; and terminates fatally with a non-zero exit
status on any other version. -/
theorem convert_cast_contract :
    (∀ (first : String) (rest : List String) (hdr : CastHeader),
      hdr.version = 2 → convert (first :: rest) hdr = .ok (first :: rest)) ∧
    (∀ (first : String) (rest : List String),
      convert (first :: rest) ⟨3, some ⟨some 100, some 40⟩, none, none⟩ =
        .ok ("\x7b\"version\":2,\"width\":100,\"height\":40\x7d" :: rest)) ∧
    (∀ (first : String) (rest : List String),
      convert (first :: rest) ⟨3, none, none, none⟩ =
        .ok ("\x7b\"version\":2,\"width\":80,\"height\":24\x7d" :: rest)) ∧
    (∀ (first : String) (rest : List String) (ts env : String),
      convert (first :: rest) ⟨3, some ⟨some 100, some 40⟩, some ts, some env⟩ =
        .ok (("\x7b\"version\":2,\"width\":100,\"height\":40,\"timestamp\":" ++
          ts ++ ",\"env\":" ++ env ++ "\x7d") :: rest)) ∧
    (∀ (input : List String) (hdr : CastHeader),
      hdr.version ≠ 2 → hdr.version ≠ 3 →
      ∃ msg, convert input hdr = .error msg ∧
        convertExitCode (convert input hdr) ≠ 0) := by
  refine ⟨fun first rest hdr h2 => ?_, fun first rest => rfl,
    fun first rest => rfl, fun first rest ts env => rfl,
    fun input hdr h2 h3 => ?_⟩
  · simp [convert, h2]
  · cases input with
    | nil => exact ⟨"empty cast file", rfl, by simp [convert, convertExitCode]⟩
    | cons first rest =>
      refine ⟨"unsupported cast version: " ++ toString hdr.version, ?_, ?_⟩
      · simp [convert, h2, h3]
      · simp [convert, h2, h3, convertExitCode]

/-- Witness for C5: a version-2 file passes through unchanged, and a
version-4 header is a fatal error with non-zero exit status. -/
theorem convert_cast_contract_witness :
    convert ["\x7b\"version\":2\x7d", "ev1"] ⟨2, none, none, none⟩ =
      .ok ["\x7b\"version\":2\x7d", "ev1"] ∧
    (∃ msg, convert ["\x7b\"version\":4\x7d"] ⟨4, none, none, none⟩ =
      .error msg ∧
      convertExitCode (convert ["\x7b\"version\":4\x7d"] ⟨4, none, none, none⟩) ≠ 0) :=
  ⟨convert_cast_contract.1 "\x7b\"version\":2\x7d" ["ev1"] ⟨2, none, none, none⟩ rfl,
   convert_cast_contract.2.2.2.2 ["\x7b\"version\":4\x7d"] ⟨4, none, none, none⟩
     (by decide) (by decide)⟩

/-- Counterexample to C6 as stated: for the single input item with the
two spans "a" and "b", the fallback appends two list items "a" and "b",
not exactly one item with the concatenated text "ab". -/
theorem append_items_spans_counterexample :
    appendItemsSpansFallback [[("a", ()), ("b", ())]] =
      [("a", ()), ("b", ())] ∧
    (appendItemsSpansFallback [[("a", ()), ("b", ())]]).length ≠ 1 ∧
    (appendItemsSpansFallback [[("a", ()), ("b", ())]]).map Prod.fst ≠
      ["ab"] := by
  refine ⟨rfl, by decide, by decide⟩

lemma appendItemsSpansFallback_go_eq {σ : Type}
    (spans : List (String × σ)) :
    appendItemsSpansFallback.go spans = spans := by
  induction spans with
  | nil => rfl
  | cons p rest ih => simp [appendItemsSpansFallback.go, ih]

/-- Amended C6: when the native batching call is absent,
`List.append_items_spans(items)` falls back to per-span `append_item`
calls — it appends one list item per span of every input item, each
with that span's own text and style (the call sequence is exactly the
flattening of the per-item span lists), rather than one joined item per
input item. -/
theorem append_items_spans_fallback_per_span {σ : Type}
    (items : List (List (String × σ))) :
    appendItemsSpansFallback items = items.flatten ∧
    (appendItemsSpansFallback items).length =
      (items.map List.length).sum := by
  have key : appendItemsSpansFallback items = items.flatten := by
    induction items with
    | nil => rfl
    | cons spans items ih =>
      simp [appendItemsSpansFallback, appendItemsSpansFallback_go_eq, ih]
  exact ⟨key, by rw [key]; exact List.length_flatten items⟩

/-- Counterexample to C7 as stated: an `on_event` callback returning the
false value `0` (Python truthiness false, but not the `False` object)
does not stop the loop — with two polled events the loop runs both
iterations instead of stopping at the first. -/
theorem app_run_counterexample :
    pyTruthy (PyVal.int 0) = false ∧
    appRunSteps (some fun _ : Unit => PyVal.int 0) [some (), some ()] = 2 ∧
    appRunSteps (some fun _ : Unit => PyVal.int 0) [some (), some ()] ≠ 1 := by
  refine ⟨rfl, rfl, by decide⟩

/-- Amended C7: in `App.run`'s loop, when an event is received and an
`on_event` callback is configured, the loop stops exactly when the
callback's return value is the boolean `False` itself (the
`keep_going is False` identity test); every other return value —
including other falsy values such as `0`, `None` or `""` — lets the
loop continue, as does the absence of a callback or of an event. -/
theorem app_run_stops_only_on_False {Ev : Type} :
    (∀ (f : Ev → PyVal) (ev : Ev) (rest : List (Option Ev)),
      f ev = PyVal.bool false →
      appRunSteps (some f) (some ev :: rest) = 1) ∧
    (∀ (f : Ev → PyVal) (trace : List (Option Ev)),
      (∀ e : Ev, f e ≠ PyVal.bool false) →
      appRunSteps (some f) trace = trace.length) ∧
    (∀ trace : List (Option Ev),
      appRunSteps (none : Option (Ev → PyVal)) trace = trace.length) := by
  refine ⟨fun f ev rest hf => ?_, fun f trace hf => ?_, fun trace => ?_⟩
  · simp [appRunSteps, isStopSignal, hf]
  · induction trace with
    | nil => rfl
    | cons polled rest ih =>
      cases polled with
      | none => simp [appRunSteps, ih, Nat.add_comm]
      | some ev =>
        have : isStopSignal (f ev) = false := by
          simp [isStopSignal]
          exact hf ev
        simp [appRunSteps, this, ih, Nat.add_comm]
  · induction trace with
    | nil => rfl
    | cons polled rest ih =>
      cases polled <;> simp [appRunSteps, ih, Nat.add_comm]

/-- Witness for the amended C7: a callback returning `False` stops after
one iteration; a callback returning `None` never stops, so a two-entry
trace runs two iterations. -/
theorem app_run_stops_only_on_False_witness :
    appRunSteps (some fun _ : Unit => PyVal.bool false) [some ()] = 1 ∧
    appRunSteps (some fun _ : Unit => PyVal.none) [some (), none] = 2 :=
  ⟨app_run_stops_only_on_False.1 (fun _ => PyVal.bool false) () [] rfl,
   app_run_stops_only_on_False.2.1 (fun _ => PyVal.none) [some (), none]
     (fun _ h => PyVal.noConfusion h)⟩

lemma segs_length (endPos avail : Int) (frSum : ℚ) (gap : Int) :
    ∀ (fs : List ℚ) (pos : Int),
      (segs endPos avail frSum gap pos fs).length = fs.length
  | [], _ => rfl
  | [_], _ => rfl
  | f :: g :: rest, pos => by
    simp only [segs, List.length_cons]
    rw [segs_length endPos avail frSum gap (g :: rest)]
    simp

/-- Claim C8: `split_h` and `split_v` never divide by zero — when the
fractions sum to 0 (including the empty list) the divisor becomes 1.0,
the call returns normally (one rect per fraction), and with divisor 1
each non-final segment is sized `round(available * fraction)`. -/
theorem split_no_division_by_zero :
    frSumOf [] = 1 ∧
    (∀ fs : List ℚ, fs.sum = 0 → frSumOf fs = 1) ∧
    (∀ (avail : Int) (f : ℚ), segSize avail 1 f = pyRound ((avail : ℚ) * f)) ∧
    (∀ (rect : Rect) (fs : List ℚ) (gap : Int),
      (split_v rect fs gap).length = fs.length) ∧
    (∀ (rect : Rect) (fs : List ℚ) (gap : Int),
      (split_h rect fs gap).length = fs.length) := by
  refine ⟨rfl, fun fs h => ?_, fun avail f => ?_, fun rect fs gap => ?_,
    fun rect fs gap => ?_⟩
  · simp [frSumOf, h]
  · simp [segSize]
  · simp [split_v, segs_length]
  · simp [split_h, segs_length]

lemma sum_zero_singleton : ([(0:ℚ)]).sum = 0 := by simp

/-- Witness for C8: the zero fraction list `[0]` makes the divisor 1 and
`split_v` still returns one rect. -/
theorem split_no_division_by_zero_witness :
    frSumOf [(0:ℚ)] = 1 ∧
    (split_v ⟨0, 0, 10, 10⟩ [(0:ℚ)] 0).length = 1 :=
  ⟨split_no_division_by_zero.2.1 [(0:ℚ)] sum_zero_singleton,
   split_no_division_by_zero.2.2.2.1 ⟨0, 0, 10, 10⟩ [(0:ℚ)] 0⟩

lemma pyRound_nonneg {q : ℚ} (hq : 0 ≤ q) : 0 ≤ pyRound q := by
  have hfl : 0 ≤ ⌊q⌋ := Int.floor_nonneg.mpr hq
  unfold pyRound
  split
  · exact hfl
  · split
    · omega
    · split
      · exact hfl
      · omega

lemma frSumOf_pos {fs : List ℚ} (hfs : ∀ f ∈ fs, 0 ≤ f) : 0 < frSumOf fs := by
  by_cases h : fs.sum = 0
  · simp [frSumOf, h]
  · simp only [frSumOf, h, if_false]
    exact lt_of_le_of_ne (List.sum_nonneg hfs) (Ne.symm h)

lemma segSize_nonneg {avail : Int} {frSum f : ℚ} (ha : 0 ≤ avail)
    (hfr : 0 < frSum) (hf : 0 ≤ f) : 0 ≤ segSize avail frSum f :=
  pyRound_nonneg (mul_nonneg (by exact_mod_cast ha) (div_nonneg hf hfr.le))

lemma segs_snd_sum (endPos avail : Int) (frSum : ℚ) (gap : Int) :
    ∀ (fs : List ℚ) (pos : Int), fs ≠ [] →
      (∀ f ∈ fs.dropLast, 0 ≤ segSize avail frSum f) →
      segsLastPos avail frSum gap pos fs ≤ endPos →
      ((segs endPos avail frSum gap pos fs).map Prod.snd).sum
        = endPos - pos - ((fs.length : Int) - 1) * gap
  | [], _, hne, _, _ => absurd rfl hne
  | [f], pos, _, _, hlast => by
    have hl : segsLastPos avail frSum gap pos [f] = pos := rfl
    rw [hl] at hlast
    simp only [segs, List.map_cons, List.map_nil, List.sum_cons,
      List.sum_nil, List.length_cons, List.length_nil]
    omega
  | f :: g :: rest, pos, _, hnn, hlast => by
    have hs : 0 ≤ segSize avail frSum f := by
      apply hnn
      simp
    have hlast2 : segsLastPos avail frSum gap
        (pos + segSize avail frSum f + gap) (g :: rest) ≤ endPos := hlast
    have hnn2 : ∀ f2 ∈ (g :: rest).dropLast, 0 ≤ segSize avail frSum f2 := by
      intro f2 hf2
      apply hnn
      rcases rest with _ | ⟨r, rs⟩
      · simp at hf2
      · simp only [List.dropLast_cons₂, List.mem_cons] at hf2 ⊢
        tauto
    have ih := segs_snd_sum endPos avail frSum gap (g :: rest)
      (pos + segSize avail frSum f + gap) (by simp) hnn2 hlast2
    simp only [segs, List.map_cons, List.sum_cons]
    rw [max_eq_right hs, ih]
    simp only [List.length_cons]
    push_cast
    ring

/-- Counterexample to C1 as stated: with the non-negative fractions
(1, 1, 0) and gap 0 on the rect (0, 0, 3, 24), both non-final widths
round up (`round(1.5) = 2`), the running offset overshoots to 4, and
the final column's width is clamped to 0 instead of the remainder
`x + w − xx = −1` — the widths sum to 4, not the rect's width 3, so the
columns do not tile the rect. -/
theorem split_v_tiling_counterexample :
    (∀ f ∈ ([1, 1, 0] : List ℚ), 0 ≤ f) ∧
    split_v ⟨0, 0, 3, 24⟩ [1, 1, 0] 0 =
      [⟨0, 0, 2, 24⟩, ⟨2, 0, 2, 24⟩, ⟨4, 0, 0, 24⟩] ∧
    ((split_v ⟨0, 0, 3, 24⟩ [1, 1, 0] 0).map Rect.w).sum +
      ((([1, 1, 0] : List ℚ).length : Int) - 1) * 0 ≠ 3 ∧
    (split_v ⟨0, 0, 3, 24⟩ [1, 1, 0] 0).getLast?.map Rect.w ≠
      some (0 + 3 - splitVLastPos ⟨0, 0, 3, 24⟩ [1, 1, 0] 0) := by
  refine ⟨by norm_num, ?_, ?_, ?_⟩
  · norm_num [split_v, segs, segSize, frSumOf, pyRound]
  · norm_num [split_v, segs, segSize, frSumOf, pyRound]
  · norm_num [split_v, splitVLastPos, segsLastPos, segs, segSize,
      frSumOf, pyRound]

/-- Amended C1: for every call with non-negative fractions, each
non-final segment has size `round(available * fraction / sum)`, the
final segment absorbs the remainder *clamped at zero*
(`max(0, rect.x + rect.width − xx)`), and whenever that remainder is
non-negative (the running offset for the last segment does not
overshoot the rect's far edge) the widths (heights) plus the `n−1` gaps
sum exactly to the rect's width (height); the spec's concrete example
`split_v((0,0,100,24), 0.25, 0.5, 0.25, gap=1)` holds as stated, with
strictly increasing x-offsets 0, 25, 75 and widths 24, 49, 25 that
together with the two unit gaps sum to exactly 100. -/
theorem split_tiling (x y w h gap : Int) (fs : List ℚ)
    (hne : fs ≠ []) (hfs : ∀ f ∈ fs, 0 ≤ f)
    (hlastV : splitVLastPos ⟨x, y, w, h⟩ fs gap ≤ x + w)
    (hlastH : splitHLastPos ⟨x, y, w, h⟩ fs gap ≤ y + h) :
    (((split_v ⟨x, y, w, h⟩ fs gap).map Rect.w).sum +
      ((fs.length : Int) - 1) * gap = w ∧
     ((split_h ⟨x, y, w, h⟩ fs gap).map Rect.h).sum +
      ((fs.length : Int) - 1) * gap = h) ∧
    split_v ⟨0, 0, 100, 24⟩ [1/4, 1/2, 1/4] 1 =
      [⟨0, 0, 24, 24⟩, ⟨25, 0, 49, 24⟩, ⟨75, 0, 25, 24⟩] ∧
    (split_v ⟨0, 0, 100, 24⟩ [1/4, 1/2, 1/4] 1).map Rect.x = [0, 25, 75] ∧
    ((split_v ⟨0, 0, 100, 24⟩ [1/4, 1/2, 1/4] 1).map Rect.w).sum + 2 * 1 =
      100 := by
  have hfr := frSumOf_pos hfs
  refine ⟨⟨?_, ?_⟩, ?_, ?_, ?_⟩
  · have hnn : ∀ f ∈ fs.dropLast,
        0 ≤ segSize (max 0 (w - max 0 (((fs.length : Int) - 1) * gap)))
          (frSumOf fs) f := fun f hf =>
      segSize_nonneg (le_max_left _ _) hfr (hfs f (List.dropLast_subset fs hf))
    have key := segs_snd_sum (x + w)
      (max 0 (w - max 0 (((fs.length : Int) - 1) * gap))) (frSumOf fs) gap
      fs x hne hnn hlastV
    simp only [split_v, List.map_map]
    have hmap : (Rect.w ∘ fun p : Int × Int => Rect.mk p.1 y p.2 h) =
        Prod.snd := rfl
    rw [hmap, key]
    ring
  · have hnn : ∀ f ∈ fs.dropLast,
        0 ≤ segSize (max 0 (h - max 0 (((fs.length : Int) - 1) * gap)))
          (frSumOf fs) f := fun f hf =>
      segSize_nonneg (le_max_left _ _) hfr (hfs f (List.dropLast_subset fs hf))
    have key := segs_snd_sum (y + h)
      (max 0 (h - max 0 (((fs.length : Int) - 1) * gap))) (frSumOf fs) gap
      fs y hne hnn hlastH
    simp only [split_h, List.map_map]
    have hmap : (Rect.h ∘ fun p : Int × Int => Rect.mk x p.1 w p.2) =
        Prod.snd := rfl
    rw [hmap, key]
    ring
  · norm_num [split_v, segs, segSize, frSumOf, pyRound]
  · norm_num [split_v, segs, segSize, frSumOf, pyRound]
  · norm_num [split_v, segs, segSize, frSumOf, pyRound]

lemma quarter_half_nonneg : ∀ f ∈ ([1/4, 1/2, 1/4] : List ℚ), 0 ≤ f := by
  norm_num

lemma splitVLastPos_concrete :
    splitVLastPos ⟨0, 0, 100, 24⟩ [1/4, 1/2, 1/4] 1 ≤ 0 + 100 := by
  norm_num [splitVLastPos, segsLastPos, segSize, frSumOf, pyRound]

lemma splitHLastPos_concrete :
    splitHLastPos ⟨0, 0, 100, 24⟩ [1/4, 1/2, 1/4] 1 ≤ 0 + 24 := by
  norm_num [splitHLastPos, segsLastPos, segSize, frSumOf, pyRound]

/-- Witness for the amended C1 at the spec's concrete example: the
widths of `split_v((0,0,100,24), 0.25, 0.5, 0.25, gap=1)` plus the two
unit gaps sum to exactly 100. -/
theorem split_tiling_witness :
    ((split_v ⟨0, 0, 100, 24⟩ [1/4, 1/2, 1/4] 1).map Rect.w).sum +
      ((([1/4, 1/2, 1/4] : List ℚ).length : Int) - 1) * 1 = 100 :=
  (split_tiling 0 0 100 24 1 [1/4, 1/2, 1/4] (by simp) quarter_half_nonneg
    splitVLastPos_concrete splitHLastPos_concrete).1.1

/-- Witness for the amended C6 at a concrete input: the fallback call
sequence for one two-span item is the flattening of the span lists. -/
theorem append_items_spans_fallback_per_span_witness :
    appendItemsSpansFallback [[("x", ()), ("y", ())], [("z", ())]] =
      ([[("x", ()), ("y", ())], [("z", ())]] :
        List (List (String × Unit))).flatten :=
  (append_items_spans_fallback_per_span
    [[("x", ()), ("y", ())], [("z", ())]]).1

/-- Witness for C10 at a concrete run: two successful iterations, then a
failure; the error is captured, the second result stays readable, and
the planned fourth iteration never runs. -/
theorem background_task_loop_error_witness :
    taskError (runLoop
      ([1, 2].map Except.ok ++ Except.error "boom" :: [Except.ok 3])
      (⟨none, none⟩ : TaskState String Nat)).1 = some "boom" ∧
    peek (runLoop
      ([1, 2].map Except.ok ++ Except.error "boom" :: [Except.ok 3])
      (⟨none, none⟩ : TaskState String Nat)).1 = ([1, 2] : List Nat).getLast? ∧
    (runLoop
      ([1, 2].map Except.ok ++ Except.error "boom" :: [Except.ok 3])
      (⟨none, none⟩ : TaskState String Nat)).2 = ([1, 2] : List Nat).length + 1 :=
  background_task_loop_error [1, 2] "boom" [Except.ok 3]

end RatatuiPy
